import Mathlib

/-!
Verification of the usage-rate and schedule engine of the ccusage monitor.

Times are modelled as rational numbers of seconds (datetime arithmetic in the
source is exact over seconds and the values in play are exact in both binary
floating point and in the rationals).  A timestamp string field of an input
record is modelled by an optional ParseResult: absent, present and parseable
to an instant, or present but malformed (datetime.fromisoformat raises).
Fallible computations return Except Unit, with Except.error standing for an
uncaught Python exception.
-/

/-- Outcome of datetime.fromisoformat on a present string field. -/
inductive ParseResult where
  | ok (t : ℚ)
  | bad
deriving DecidableEq, Repr

/-- One usage-session record as consumed from the external source
(protocols.CcusageBlock): startTime, actualEndTime, totalTokens
(default 0), isActive (default false), isGap (default false). -/
structure Block where
  startTime : Option ParseResult
  actualEndTime : Option ParseResult
  totalTokens : ℤ
  isActive : Bool
  isGap : Bool
deriving DecidableEq, Repr

/-- Loop body of calculate_hourly_burn_rate in
src/ccusage_monitor/core/calculations.py (lines 28-82), iterating over the
already-reversed list of blocks and threading the running total
(tokens per minute).  The break on a session that ended before the window
returns the total accumulated so far. -/
def burnLoopCore (now windowStart : ℚ) : List Block → ℚ → Except Unit ℚ
  | [], total => Except.ok total
  | b :: rest, total =>
    if b.isGap then burnLoopCore now windowStart rest total
    else
      match b.startTime with
      | none => burnLoopCore now windowStart rest total
      | some ParseResult.bad => Except.error ()
      | some (ParseResult.ok start_time) =>
        if now < start_time then burnLoopCore now windowStart rest total
        else
          let after_end : ℚ → Except Unit ℚ := fun session_actual_end =>
            if session_actual_end < windowStart then
              Except.ok total
            else
              let session_start_in_hour := max start_time windowStart
              let session_end_in_hour := min session_actual_end now
              if session_end_in_hour ≤ session_start_in_hour then
                burnLoopCore now windowStart rest total
              else
                let session_tokens : ℚ := (b.totalTokens : ℚ)
                if b.isActive then
                  let total_session_duration_minutes :=
                    (session_actual_end - start_time) / 60
                  if 0 < total_session_duration_minutes then
                    burnLoopCore now windowStart rest
                      (total + session_tokens / total_session_duration_minutes)
                  else
                    burnLoopCore now windowStart rest total
                else
                  let total_session_duration := session_actual_end - start_time
                  if 0 < total_session_duration then
                    let hour_duration := session_end_in_hour - session_start_in_hour
                    let proportional_tokens :=
                      session_tokens * (hour_duration / total_session_duration)
                    let duration_minutes := hour_duration / 60
                    if 0 < duration_minutes then
                      burnLoopCore now windowStart rest
                        (total + proportional_tokens / duration_minutes)
                    else
                      burnLoopCore now windowStart rest total
                  else
                    burnLoopCore now windowStart rest total
          if b.isActive then after_end now
          else
            match b.actualEndTime with
            | some ParseResult.bad => Except.error ()
            | some (ParseResult.ok e) => after_end e
            | none => after_end now

/-- calculate_hourly_burn_rate from src/ccusage_monitor/core/calculations.py,
modelled at a cache miss (the memoization layer is keyed by the pair of the
current time and the list length and is bypassed on a fresh cache).  The
source iterates over reversed(blocks). -/
def calculate_hourly_burn_rate_core (blocks : List Block) (current_time : ℚ) :
    Except Unit ℚ :=
  if blocks.isEmpty then Except.ok 0
  else burnLoopCore current_time (current_time - 3600) blocks.reverse 0

/-- Per-block token share of calculate_hourly_burn_rate in
src/ccusage_monitor/calculations.py (lines 16-59): the amount added to
total_tokens by one iteration of the loop body.  Iterations that hit a
continue statement leave the total unchanged, modelled as a share of 0;
an unparseable present timestamp raises, modelled as Except.error. -/
def legacyContrib (now windowStart : ℚ) (b : Block) : Except Unit ℚ :=
  match b.startTime with
  | none => Except.ok 0
  | some ParseResult.bad => Except.error ()
  | some (ParseResult.ok start_time) =>
    if b.isGap then Except.ok 0
    else
      let after_end : ℚ → Except Unit ℚ := fun session_actual_end =>
        if session_actual_end < windowStart then Except.ok 0
        else
          let session_start_in_hour := max start_time windowStart
          let session_end_in_hour := min session_actual_end now
          if session_end_in_hour ≤ session_start_in_hour then Except.ok 0
          else
            let total_session_duration := (session_actual_end - start_time) / 60
            let hour_duration := (session_end_in_hour - session_start_in_hour) / 60
            if 0 < total_session_duration then
              Except.ok ((b.totalTokens : ℚ) * (hour_duration / total_session_duration))
            else Except.ok 0
      if b.isActive then after_end now
      else
        match b.actualEndTime with
        | some ParseResult.bad => Except.error ()
        | some (ParseResult.ok e) => after_end e
        | none => after_end now

/-- The accumulation loop of the legacy calculate_hourly_burn_rate
(src/ccusage_monitor/calculations.py): processes blocks in list order with
no early termination, adding each block share to total_tokens. -/
def burnLoopLegacy (now windowStart : ℚ) : List Block → ℚ → Except Unit ℚ
  | [], total => Except.ok total
  | b :: rest, total =>
    match legacyContrib now windowStart b with
    | Except.error e => Except.error e
    | Except.ok tokens_in_hour => burnLoopLegacy now windowStart rest (total + tokens_in_hour)

/-- calculate_hourly_burn_rate from src/ccusage_monitor/calculations.py:
iterates in the given order and finally returns total_tokens / 60 when the
total is positive, else 0. -/
def calculate_hourly_burn_rate_legacy (blocks : List Block) (current_time : ℚ) :
    Except Unit ℚ :=
  if blocks.isEmpty then Except.ok 0
  else
    (burnLoopLegacy current_time (current_time - 3600) blocks 0).map
      (fun total_tokens => if 0 < total_tokens then total_tokens / 60 else 0)

/-- True when the legacy loop body on this block does not raise. -/
def contribOk (now ws : ℚ) (b : Block) : Bool :=
  match legacyContrib now ws b with
  | Except.ok _ => true
  | Except.error _ => false

/-- The token share of a non-raising legacy loop iteration (0 on raise). -/
def contribVal (now ws : ℚ) (b : Block) : ℚ :=
  match legacyContrib now ws b with
  | Except.ok v => v
  | Except.error _ => 0

/-- The in-memory TTL cache of src/ccusage_monitor/cache.py (class Cache).
The Python dict is modelled as an association list with unique keys; set
overwrites by removing any entry for the key and prepending the fresh one,
which is observationally equal to dict assignment for get and delete.
The wall clock read by time.time() is passed explicitly. -/
structure Cache (V : Type) where
  entries : List (String × V × ℚ)

/-- Cache.set: store value under key with the current timestamp. -/
def Cache.set {V : Type} (c : Cache V) (key : String) (value : V) (now : ℚ) :
    Cache V :=
  ⟨(key, value, now) :: c.entries.filter (fun e => e.1 != key)⟩

/-- Cache.get: return the stored value unless ttl is positive and the entry
is older than ttl, in which case the entry is deleted and None is returned.
Returns the result together with the cache state after the call. -/
def Cache.get {V : Type} (c : Cache V) (key : String) (ttl : ℚ) (now : ℚ) :
    Option V × Cache V :=
  match c.entries.find? (fun e => e.1 == key) with
  | none => (none, c)
  | some (_, value, timestamp) =>
    if 0 < ttl ∧ ttl < now - timestamp then
      (none, ⟨c.entries.filter (fun e => e.1 != key)⟩)
    else (some value, c)

/-- TOKEN_LIMITS from src/ccusage_monitor/core/config.py (also the literal
dict limits in data.py and core/data.py). -/
def TOKEN_LIMITS : List (String × ℤ) :=
  [("pro", 7000), ("max5", 35000), ("max20", 140000)]

/-- get_token_limit from src/ccusage_monitor/core/data.py (lines 168-193),
modelled at a cache miss for the fixed-plan branch.  For the inferred plan
it returns the maximum totalTokens over records that are neither gaps nor
active, verbatim, falling back to 7000 when no record qualifies. -/
def get_token_limit_data (plan : String) (blocks : Option (List Block)) : ℤ :=
  if plan != "custom_max" then (TOKEN_LIMITS.lookup plan).getD 7000
  else
    match blocks with
    | none => 7000
    | some bs =>
      if bs.isEmpty then 7000
      else
        let valid_tokens :=
          (bs.filter (fun b => !b.isGap && !b.isActive)).map (fun b => b.totalTokens)
        (valid_tokens.max?).getD 7000

/-- Python truthiness of an optional record list: False for None and for
the empty list. -/
def blocksTruthy : Option (List Block) → Bool
  | none => false
  | some bs => !bs.isEmpty

/-- get_token_limit from src/ccusage_monitor/core/calculations.py
(lines 164-187): for the inferred plan with a truthy record list the
observed maximum over completed non-gap records is bucketed up to a fixed
tier ceiling; otherwise the fixed TOKEN_LIMITS entry (default pro). -/
def get_token_limit_calc (plan : String) (blocks : Option (List Block)) : ℤ :=
  if plan = "custom_max" ∧ blocksTruthy blocks then
    let max_tokens := (blocks.getD []).foldl
      (fun max_tokens b =>
        if b.isGap || b.isActive then max_tokens
        else if max_tokens < b.totalTokens then b.totalTokens else max_tokens) 0
    if 35000 < max_tokens then 140000
    else if 7000 < max_tokens then 35000
    else 7000
  else (TOKEN_LIMITS.lookup plan).getD 7000

/-- The maximum totalTokens over records with neither isGap nor isActive set
(0 when none qualifies): the observed maximum that the inferred plan
buckets. -/
def max_valid_tokens (bs : List Block) : ℤ :=
  ((bs.filter (fun b => !b.isGap && !b.isActive)).map (fun b => b.totalTokens)).foldr max 0

/-- The candidate reset hours of get_next_reset_time: the custom hour alone
when provided, else the fixed schedule 04:00, 09:00, 14:00, 18:00, 23:00. -/
def resetHours (custom_reset_hour : Option ℤ) : List ℤ :=
  match custom_reset_hour with
  | some h => [h]
  | none => [4, 9, 14, 18, 23]

/-- target_time.hour for a wall-clock time given in seconds. -/
def hourOf (t : ℤ) : ℤ := (t.emod 86400).ediv 3600

/-- target_time.minute for a wall-clock time given in seconds. -/
def minuteOf (t : ℤ) : ℤ := ((t.emod 86400).emod 3600).ediv 60

/-- The schedule core of get_next_reset_time
(src/ccusage_monitor/calculations.py lines 84-108 and
src/ccusage_monitor/core/calculations.py lines 123-154) after the timezone
conversion: t is the wall-clock time in the target timezone in seconds, the
result is the wall-clock reset instant.  The first candidate hour h with
current_hour < h, or current_hour == h with current_minute == 0, is chosen
for today; otherwise the first candidate hour of the next day. -/
def get_next_reset_time_local (t : ℤ) (custom_reset_hour : Option ℤ) : ℤ :=
  let reset_hours := resetHours custom_reset_hour
  let current_hour := hourOf t
  let current_minute := minuteOf t
  match reset_hours.find? (fun h =>
      decide (current_hour < h) || (decide (current_hour = h) && decide (current_minute = 0))) with
  | some next_reset_hour => t.ediv 86400 * 86400 + next_reset_hour * 3600
  | none => (t.ediv 86400 + 1) * 86400 + (resetHours custom_reset_hour).headD 0 * 3600

/-- The timezone database seen through pytz.timezone: a partial map from
identifier strings to fixed utc offsets in seconds (daylight saving is not
modelled; the instants exercised here are unambiguous), together with the
fact that the identifier Europe/Warsaw resolves.  pytz.timezone raises
UnknownTimeZoneError exactly on identifiers outside the map. -/
structure TzDb where
  lookup : String → Option ℤ
  warsaw : ℤ
  warsaw_ok : lookup "Europe/Warsaw" = some warsaw

/-- The try/except block of get_next_reset_time: resolve the identifier,
falling back to Europe/Warsaw on UnknownTimeZoneError. -/
def resolve_timezone (db : TzDb) (timezone_str : String) : ℤ :=
  match db.lookup timezone_str with
  | some tz => tz
  | none => db.warsaw

/-- get_next_reset_time from src/ccusage_monitor/core/calculations.py
(lines 90-161), modelled at a cache miss.  An aware datetime is represented
by its utc instant t in seconds plus its tzinfo offset; a naive one by its
wall-clock seconds with tzinfo none.  The source keeps utc unconverted when
the input is utc-aware and the identifier is the default Europe/Warsaw;
otherwise it resolves the timezone (with fallback), converts, runs the
schedule core on the wall clock, and localizes the result back to an
instant (the final astimezone is instant-preserving). -/
def get_next_reset_time_tz (db : TzDb) (t : ℤ) (tzinfo : Option ℤ)
    (custom_reset_hour : Option ℤ) (timezone_str : String) : ℤ :=
  if tzinfo = some 0 ∧ timezone_str = "Europe/Warsaw" then
    get_next_reset_time_local t custom_reset_hour
  else
    let off := resolve_timezone db timezone_str
    let wall :=
      match tzinfo with
      | some _ => t + off
      | none => t
    get_next_reset_time_local wall custom_reset_hour - off

/-- A concrete timezone database containing exactly Europe/Warsaw at the
utc offset +3600 it has on the winter instants used below. -/
def dbW : TzDb :=
  ⟨fun s => if s = "Europe/Warsaw" then some 3600 else none, 3600, by simp⟩

/-- The prediction block of main in src/ccusage_monitor/main.py
(lines 129 and 149-155): tokens_left = token_limit - tokens_used, and the
predicted end is current_time plus tokens_left / burn_rate minutes when the
burn rate and tokens_left are positive, else the reset time.  Times are in
seconds, so a minute count is scaled by 60. -/
def compute_usage_prediction (token_limit tokens_used : ℤ) (burn_rate : ℚ)
    (current_time reset_time : ℚ) : ℤ × ℚ :=
  let tokens_left := token_limit - tokens_used
  let predicted_end_time :=
    if 0 < burn_rate ∧ 0 < tokens_left then
      current_time + ((tokens_left : ℚ) / burn_rate) * 60
    else reset_time
  (tokens_left, predicted_end_time)

/-! Helper lemmas shared by the claim theorems. -/

/-- Euclidean decomposition facts used to reason about hours and minutes. -/
theorem time_decomp (t : ℤ) :
    t = 86400 * t.ediv 86400 + t.emod 86400 ∧
    0 ≤ t.emod 86400 ∧ t.emod 86400 < 86400 ∧
    t.emod 86400 = 3600 * (t.emod 86400).ediv 3600 + (t.emod 86400).emod 3600 ∧
    0 ≤ (t.emod 86400).emod 3600 ∧ (t.emod 86400).emod 3600 < 3600 ∧
    (t.emod 86400).emod 3600 =
      60 * ((t.emod 86400).emod 3600).ediv 60 + ((t.emod 86400).emod 3600).emod 60 ∧
    0 ≤ ((t.emod 86400).emod 3600).emod 60 ∧ ((t.emod 86400).emod 3600).emod 60 < 60 ∧
    t = 3600 * t.ediv 3600 + t.emod 3600 ∧ 0 ≤ t.emod 3600 ∧ t.emod 3600 < 3600 :=
  ⟨(Int.ediv_add_emod t 86400).symm,
   Int.emod_nonneg t (by norm_num), Int.emod_lt_of_pos t (by norm_num),
   (Int.ediv_add_emod _ 3600).symm,
   Int.emod_nonneg _ (by norm_num), Int.emod_lt_of_pos _ (by norm_num),
   (Int.ediv_add_emod _ 60).symm,
   Int.emod_nonneg _ (by norm_num), Int.emod_lt_of_pos _ (by norm_num),
   (Int.ediv_add_emod t 3600).symm,
   Int.emod_nonneg t (by norm_num), Int.emod_lt_of_pos t (by norm_num)⟩

/-- The legacy accumulation loop succeeds exactly when every block share
parses, and then returns the running total plus the sum of the shares. -/
theorem burnLoopLegacy_eq (now ws : ℚ) : ∀ (l : List Block) (total : ℚ),
    burnLoopLegacy now ws l total =
      if l.all (contribOk now ws) then
        Except.ok (total + (l.map (contribVal now ws)).sum)
      else Except.error ()
  | [], total => by simp [burnLoopLegacy]
  | b :: rest, total => by
    cases h : legacyContrib now ws b with
    | error e =>
      cases e
      simp [burnLoopLegacy, h, List.all_cons, contribOk]
    | ok c =>
      simp [burnLoopLegacy, h, burnLoopLegacy_eq now ws rest, List.all_cons,
        contribOk, contribVal, add_assoc]

/-- List.all is invariant under permutation. -/
theorem perm_all {α : Type} (p : α → Bool) {l1 l2 : List α} (h : l1.Perm l2) :
    l1.all p = l2.all p := by
  induction h with
  | nil => rfl
  | cons x _ ih => simp [List.all_cons, ih]
  | swap x y l => simp [List.all_cons, Bool.and_left_comm, Bool.and_comm, Bool.and_assoc]
  | trans _ _ ih1 ih2 => rw [ih1, ih2]

/-- Looking up any plan in TOKEN_LIMITS with default 7000 yields a tier. -/
theorem lookup_getD_mem (plan : String) :
    (TOKEN_LIMITS.lookup plan).getD 7000 ∈ ([7000, 35000, 140000] : List ℤ) := by
  unfold TOKEN_LIMITS
  simp only [List.lookup]
  split
  · simp
  · split
    · simp
    · split
      · simp
      · simp

/-- A plan outside the three fixed names is absent from TOKEN_LIMITS. -/
theorem lookup_unknown (plan : String) (h1 : plan ≠ "pro") (h2 : plan ≠ "max5")
    (h3 : plan ≠ "max20") : TOKEN_LIMITS.lookup plan = none := by
  have hb1 : (plan == "pro") = false := by simp [h1]
  have hb2 : (plan == "max5") = false := by simp [h2]
  have hb3 : (plan == "max20") = false := by simp [h3]
  unfold TOKEN_LIMITS
  simp only [List.lookup, hb1, hb2, hb3]

/-- The single-pass maximum accumulation of get_token_limit equals the
maximum over the valid records joined with the accumulator. -/
theorem foldl_max_valid (bs : List Block) : ∀ m : ℤ, 0 ≤ m →
    bs.foldl (fun max_tokens b =>
      if b.isGap || b.isActive then max_tokens
      else if max_tokens < b.totalTokens then b.totalTokens else max_tokens) m
    = max m (max_valid_tokens bs) := by
  induction bs with
  | nil => intro m hm; simp [max_valid_tokens, max_eq_left hm]
  | cons b rest ih =>
    intro m hm
    simp only [List.foldl_cons]
    by_cases hskip : (b.isGap || b.isActive) = true
    · have hfc : (!b.isGap && !b.isActive) = false := by
        have hor : b.isGap = true ∨ b.isActive = true := by simpa using hskip
        rcases hor with h | h <;> simp [h]
      rw [if_pos hskip, ih m hm]
      unfold max_valid_tokens
      rw [List.filter_cons, hfc]
      simp only [Bool.false_eq_true, if_false]
    · simp only [Bool.or_eq_true, not_or, Bool.not_eq_true] at hskip
      have hfc : (!b.isGap && !b.isActive) = true := by simp [hskip.1, hskip.2]
      rw [if_neg (by simp [hskip.1, hskip.2])]
      have hstep : (if m < b.totalTokens then b.totalTokens else m) = max m b.totalTokens := by
        split_ifs <;> omega
      rw [hstep, ih (max m b.totalTokens) (le_trans hm (le_max_left _ _))]
      unfold max_valid_tokens
      rw [List.filter_cons, hfc]
      simp only [if_true, List.map_cons, List.foldr_cons]
      rw [max_assoc]

/-- The observed valid maximum is never negative (base 0). -/
theorem max_valid_nonneg (bs : List Block) : 0 ≤ max_valid_tokens bs := by
  unfold max_valid_tokens
  induction (bs.filter (fun b => !b.isGap && !b.isActive)).map (fun b => b.totalTokens) with
  | nil => simp
  | cons x l ih => simp only [List.foldr_cons]; exact le_trans ih (le_max_right _ _)

/-! Claim theorems. -/

/-- Claim C1: for a record list holding a single non-gap active record that
started 30 minutes (1800 seconds) before now with 600 tokens, the
consolidated burn-rate engine returns exactly 20 tokens per minute
(600 tokens over 30 minutes), whatever the irrelevant end field holds. -/
theorem burn_rate_single_active_30min (now : ℚ) (e : Option ParseResult) :
    calculate_hourly_burn_rate_core
      [⟨some (ParseResult.ok (now - 1800)), e, 600, true, false⟩] now =
    Except.ok 20 := by
  have h1 : ¬ now < now - 1800 := by linarith
  have h2 : ¬ now < now - 3600 := by linarith
  have h3 : max (now - 1800) (now - 3600) = now - 1800 := max_eq_left (by linarith)
  have h5 : ¬ now ≤ now - 1800 := by linarith
  have h6 : now - (now - 1800) = 1800 := by ring
  simp [calculate_hourly_burn_rate_core, burnLoopCore, h1, h2, h3, h5, h6]
  norm_num

/-- Claim C2, counterexample: a completed record spanning
[now - 90 min, now - 30 min] with 3000 tokens yields a burn rate of 50
tokens per minute in the consolidated engine (the 1500-token overlap share
divided by the 30 overlap minutes), not the claimed 25. -/
theorem burn_rate_completed_partial_not_25 :
    calculate_hourly_burn_rate_core
      [⟨some (ParseResult.ok 5400), some (ParseResult.ok 9000), 3000, false, false⟩]
      10800 = Except.ok 50 ∧
    calculate_hourly_burn_rate_core
      [⟨some (ParseResult.ok 5400), some (ParseResult.ok 9000), 3000, false, false⟩]
      10800 ≠ Except.ok 25 := by
  have h : calculate_hourly_burn_rate_core
      [⟨some (ParseResult.ok 5400), some (ParseResult.ok 9000), 3000, false, false⟩]
      10800 = Except.ok 50 := by
    norm_num [calculate_hourly_burn_rate_core, burnLoopCore]
  refine ⟨h, ?_⟩
  rw [h]
  intro hc
  have : (50 : ℚ) = 25 := by injection hc
  norm_num at this

/-- Claim C2, amended: on the record spanning [now - 90 min, now - 30 min]
with 3000 tokens the consolidated engine returns 50 tokens per minute
(tokens divided by the total session duration in minutes), while the legacy
engine divides the 1500-token overlap share by 60 and returns the claimed
25 tokens per minute. -/
theorem burn_rate_completed_partial_values :
    calculate_hourly_burn_rate_core
      [⟨some (ParseResult.ok 5400), some (ParseResult.ok 9000), 3000, false, false⟩]
      10800 = Except.ok 50 ∧
    calculate_hourly_burn_rate_legacy
      [⟨some (ParseResult.ok 5400), some (ParseResult.ok 9000), 3000, false, false⟩]
      10800 = Except.ok 25 := by
  constructor
  · norm_num [calculate_hourly_burn_rate_core, burnLoopCore]
  · norm_num [calculate_hourly_burn_rate_legacy, burnLoopLegacy, legacyContrib, Except.map]

/-- Claim C3, counterexample: the consolidated engine is order-sensitive.
With an in-window active record (20 tokens per minute) listed before an old
record that ended well outside the window, the newest-first early
termination breaks on the old record first and returns 0; the swapped
order, a permutation of the same records, returns 20. -/
theorem burn_rate_core_order_dependent :
    calculate_hourly_burn_rate_core
      [⟨some (ParseResult.ok 9000), none, 600, true, false⟩,
       ⟨some (ParseResult.ok 0), some (ParseResult.ok 3600), 999, false, false⟩]
      10800 = Except.ok 0 ∧
    calculate_hourly_burn_rate_core
      [⟨some (ParseResult.ok 0), some (ParseResult.ok 3600), 999, false, false⟩,
       ⟨some (ParseResult.ok 9000), none, 600, true, false⟩]
      10800 = Except.ok 20 ∧
    List.Perm
      [⟨some (ParseResult.ok 9000), none, 600, true, false⟩,
       (⟨some (ParseResult.ok 0), some (ParseResult.ok 3600), 999, false, false⟩ : Block)]
      [⟨some (ParseResult.ok 0), some (ParseResult.ok 3600), 999, false, false⟩,
       ⟨some (ParseResult.ok 9000), none, 600, true, false⟩] := by
  refine ⟨?_, ?_, List.Perm.swap _ _ _⟩
  · norm_num [calculate_hourly_burn_rate_core, burnLoopCore]
  · norm_num [calculate_hourly_burn_rate_core, burnLoopCore]

/-- Claim C3, amended: the legacy engine, which has no early termination,
returns the same burn rate on every permutation of the record list; the
newest-first early termination of the consolidated engine is a semantic
change on lists that are not ordered oldest-first. -/
theorem burn_rate_legacy_perm_invariant (l1 l2 : List Block) (now : ℚ)
    (h : l1.Perm l2) :
    calculate_hourly_burn_rate_legacy l1 now = calculate_hourly_burn_rate_legacy l2 now := by
  unfold calculate_hourly_burn_rate_legacy
  have hlen := h.length_eq
  by_cases h1 : l1.isEmpty
  · have h2 : l2.isEmpty := by
      simp only [List.isEmpty_iff_length_eq_zero] at h1 ⊢
      omega
    simp [h1, h2]
  · have h2 : ¬ l2.isEmpty := by
      simp only [List.isEmpty_iff_length_eq_zero] at h1 ⊢
      omega
    rw [if_neg h1, if_neg h2, burnLoopLegacy_eq, burnLoopLegacy_eq,
      perm_all (contribOk now (now - 3600)) h,
      (h.map (contribVal now (now - 3600))).sum_eq]

/-- Claim C3, witness for the amended theorem at a concrete two-record
swap. -/
theorem burn_rate_legacy_perm_invariant_witness :
    calculate_hourly_burn_rate_legacy
      [⟨some (ParseResult.ok 9000), none, 600, true, false⟩,
       ⟨some (ParseResult.ok 0), some (ParseResult.ok 3600), 999, false, false⟩]
      10800 =
    calculate_hourly_burn_rate_legacy
      [⟨some (ParseResult.ok 0), some (ParseResult.ok 3600), 999, false, false⟩,
       ⟨some (ParseResult.ok 9000), none, 600, true, false⟩]
      10800 :=
  burn_rate_legacy_perm_invariant _ _ 10800 (List.Perm.swap _ _ _)

/-- Claim C4, counterexample: a batch holding one well-formed in-window
record and one record whose startTime is present but unparseable makes the
consolidated engine raise (Except.error): the malformed record is not
skipped, the batch is aborted and no result is returned. -/
theorem burn_rate_malformed_start_aborts :
    calculate_hourly_burn_rate_core
      [⟨some (ParseResult.ok 9000), none, 600, true, false⟩,
       ⟨some ParseResult.bad, none, 100, false, false⟩]
      10800 = Except.error () := by
  norm_num [calculate_hourly_burn_rate_core, burnLoopCore]

/-- Claim C4, amended: only a record whose startTime is absent (or empty,
which Python treats as falsy) is skipped: appending such a record to any
batch leaves the consolidated result unchanged.  A present but unparseable
startTime instead raises and aborts the whole batch. -/
theorem burn_rate_skips_missing_start (blocks : List Block) (b : Block) (now : ℚ)
    (h : b.startTime = none) :
    calculate_hourly_burn_rate_core (blocks ++ [b]) now =
    calculate_hourly_burn_rate_core blocks now := by
  unfold calculate_hourly_burn_rate_core
  have hstep : burnLoopCore now (now - 3600) (b :: blocks.reverse) 0 =
      burnLoopCore now (now - 3600) blocks.reverse 0 := by
    cases hgap : b.isGap <;> simp [burnLoopCore, h, hgap]
  cases hb : blocks.isEmpty
  case true =>
    have hnil : blocks = [] := by simpa [List.isEmpty_iff] using hb
    subst hnil
    simpa [burnLoopCore] using hstep
  case false =>
    have hne : (blocks ++ [b]).isEmpty = false := by simp
    simp only [hne, List.reverse_append, List.reverse_cons, List.reverse_nil,
      List.nil_append, List.singleton_append, hb]
    simpa [hb] using hstep

/-- Claim C4, witness for the amended theorem. -/
theorem burn_rate_skips_missing_start_witness :
    calculate_hourly_burn_rate_core
      ([⟨some (ParseResult.ok 9000), none, 600, true, false⟩] ++
        [⟨none, none, 42, false, false⟩]) 10800 =
    calculate_hourly_burn_rate_core
      [⟨some (ParseResult.ok 9000), none, 600, true, false⟩] 10800 :=
  burn_rate_skips_missing_start _ _ 10800 rfl

/-- Claim C5, counterexample: at 14:00:30 (50430 seconds into the day) the
hour 14 is on the default schedule and the minute is 0, yet the scheduler
returns 14:00:00 (50400), an instant strictly in the past and not the same
instant, because the boundary test inspects only the hour and the minute
and ignores seconds. -/
theorem next_reset_boundary_second_regress :
    hourOf 50430 = 14 ∧ minuteOf 50430 = 0 ∧
    get_next_reset_time_local 50430 none = 50400 ∧
    get_next_reset_time_local 50430 none < 50430 := by decide

/-- Claim C5, amended: whenever the current minute is 0 and the current
hour is on the schedule, the scheduler returns now truncated down to the
whole hour (equal to now exactly when now has zero seconds, otherwise up to
a minute in the past); in every other case the result is strictly in the
future. -/
theorem next_reset_future_or_hour_start (t : ℤ) (cr : Option ℤ)
    (hcr : ∀ c ∈ cr, 0 ≤ c ∧ c < 24) :
    (minuteOf t = 0 ∧ hourOf t ∈ resetHours cr →
      get_next_reset_time_local t cr = t - t.emod 3600 ∧
      get_next_reset_time_local t cr ≤ t) ∧
    (¬(minuteOf t = 0 ∧ hourOf t ∈ resetHours cr) →
      t < get_next_reset_time_local t cr) := by
  have hdec := time_decomp t
  constructor
  · rintro ⟨hm, hmem⟩
    cases cr with
    | some c =>
      have hc : hourOf t = c := by simpa [resetHours] using hmem
      have hfind : List.find? (fun h =>
          decide (hourOf t < h) || (decide (hourOf t = h) && decide (minuteOf t = 0)))
          [c] = some c :=
        List.find?_cons_of_pos _ (by simp [hc, hm])
      simp only [get_next_reset_time_local, resetHours, hfind]
      rw [← hc]
      simp only [hourOf, minuteOf] at hm ⊢
      omega
    | none =>
      have hmem' : hourOf t = 4 ∨ hourOf t = 9 ∨ hourOf t = 14 ∨
          hourOf t = 18 ∨ hourOf t = 23 := by simpa [resetHours] using hmem
      have hfind : List.find? (fun h =>
          decide (hourOf t < h) || (decide (hourOf t = h) && decide (minuteOf t = 0)))
          [4, 9, 14, 18, 23] = some (hourOf t) := by
        rcases hmem' with h | h | h | h | h <;> rw [h, hm] <;> decide
      simp only [get_next_reset_time_local, resetHours, hfind]
      simp only [hourOf, minuteOf] at hm ⊢
      omega
  · intro hn
    simp only [get_next_reset_time_local]
    split
    next x heq =>
      have hpx := List.find?_some heq
      have hmemx := List.mem_of_find?_eq_some heq
      simp only [Bool.or_eq_true, Bool.and_eq_true, decide_eq_true_eq] at hpx
      rcases hpx with hlt | ⟨hhx, hmx⟩
      · simp only [hourOf] at hlt
        omega
      · exact absurd ⟨hmx, by rw [hhx]; exact hmemx⟩ hn
    next heq =>
      have hhead : 0 ≤ (resetHours cr).headD 0 := by
        cases cr with
        | some c => exact (hcr c rfl).1
        | none => norm_num [resetHours]
      omega

/-- Claim C5, witness for the amended theorem: the boundary case at
14:00:30 truncates to the hour, and 14:02:10 (50530) maps to a strictly
future reset. -/
theorem next_reset_future_or_hour_start_witness :
    (get_next_reset_time_local 50430 none = 50430 - Int.emod 50430 3600 ∧
      get_next_reset_time_local 50430 none ≤ 50430) ∧
    50530 < get_next_reset_time_local 50530 none :=
  ⟨(next_reset_future_or_hour_start 50430 none (by simp)).1 ⟨by decide, by decide⟩,
   (next_reset_future_or_hour_start 50530 none (by simp)).2 (by decide)⟩

/-- Claim C6: after set(k, v) a get with ttl 0 returns v at any later (or
earlier) read time; with a positive ttl T and more than T elapsed, the get
returns none and deletes the entry, so a following get with ttl 0 also
returns none. -/
theorem cache_set_get_ttl {V : Type} (c : Cache V) (k : String) (v : V)
    (t0 t1 t2 T : ℚ) (hT : 0 < T) (helapsed : T < t1 - t0) :
    (∀ tr : ℚ, ((c.set k v t0).get k 0 tr).1 = some v) ∧
    ((c.set k v t0).get k T t1).1 = none ∧
    ((((c.set k v t0).get k T t1).2).get k 0 t2).1 = none := by
  have hfind : ((c.set k v t0).entries).find? (fun e => e.1 == k) = some (k, v, t0) :=
    List.find?_cons_of_pos _ (by simp)
  have hgone : (((c.set k v t0).entries).filter (fun e => e.1 != k)).find?
      (fun e => e.1 == k) = none := by
    rw [List.find?_eq_none]
    intro x hx
    have := (List.mem_filter.1 hx).2
    simpa using this
  refine ⟨fun tr => ?_, ?_, ?_⟩
  · simp [Cache.get, hfind]
  · simp [Cache.get, hfind, hT, helapsed]
  · simp only [Cache.get, hfind]
    rw [if_pos ⟨hT, helapsed⟩]
    simp [Cache.get, hgone]

/-- Claim C6, witness at a concrete roundtrip. -/
theorem cache_set_get_ttl_witness :
    (((⟨[]⟩ : Cache ℕ).set "k" 1 0).get "k" 0 5).1 = some 1 ∧
    (((⟨[]⟩ : Cache ℕ).set "k" 1 0).get "k" 1 2).1 = none ∧
    (((((⟨[]⟩ : Cache ℕ).set "k" 1 0).get "k" 1 2).2).get "k" 0 3).1 = none := by
  have h := cache_set_get_ttl (⟨[]⟩ : Cache ℕ) "k" 1 0 2 3 1 (by norm_num) (by norm_num)
  exact ⟨h.1 5, h.2.1, h.2.2⟩

/-- Claim C7: the inferred-mode limit resolver of core/data.py returns 7000
(the lowest fixed tier) for a None and for an empty record list, and its
result on any record list is unchanged when every record with isGap or
isActive set is dropped first: such records are ignored by the maximum. -/
theorem token_limit_data_inferred :
    get_token_limit_data "custom_max" none = 7000 ∧
    get_token_limit_data "custom_max" (some []) = 7000 ∧
    ∀ bs : List Block, get_token_limit_data "custom_max" (some bs) =
      get_token_limit_data "custom_max"
        (some (bs.filter (fun b => !b.isGap && !b.isActive))) := by
  refine ⟨by simp [get_token_limit_data], by simp [get_token_limit_data], fun bs => ?_⟩
  unfold get_token_limit_data
  rw [if_neg (by simp), if_neg (by simp)]
  dsimp only
  by_cases h1 : bs.isEmpty
  · have hb : bs = [] := by simpa [List.isEmpty_iff] using h1
    subst hb
    simp
  · rw [if_neg h1]
    by_cases h2 : (bs.filter (fun b => !b.isGap && !b.isActive)).isEmpty
    · have hf : bs.filter (fun b => !b.isGap && !b.isActive) = [] := by
        simpa [List.isEmpty_iff] using h2
      rw [hf]
      simp [List.max?]
    · rw [if_neg h2]
      rw [List.filter_filter]
      simp only [Bool.and_self]

/-- Claim C8: tokens_left always equals the limit minus the used tokens and
is negative when over quota; the predicted end time is now plus
tokens_left / burn_rate minutes when both the rate and tokens_left are
positive, and the reset time in every other case. -/
theorem prediction_tokens_left_and_end (token_limit tokens_used : ℤ)
    (burn_rate : ℚ) (current_time reset_time : ℚ) :
    (compute_usage_prediction token_limit tokens_used burn_rate current_time
      reset_time).1 = token_limit - tokens_used ∧
    (0 < burn_rate → 0 < token_limit - tokens_used →
      (compute_usage_prediction token_limit tokens_used burn_rate current_time
        reset_time).2 =
        current_time + (((token_limit - tokens_used : ℤ) : ℚ) / burn_rate) * 60) ∧
    (¬(0 < burn_rate ∧ 0 < token_limit - tokens_used) →
      (compute_usage_prediction token_limit tokens_used burn_rate current_time
        reset_time).2 = reset_time) ∧
    (token_limit < tokens_used →
      (compute_usage_prediction token_limit tokens_used burn_rate current_time
        reset_time).1 < 0) := by
  refine ⟨rfl, fun h1 h2 => ?_, fun h => ?_, fun h => ?_⟩
  · unfold compute_usage_prediction
    dsimp only
    rw [if_pos ⟨h1, h2⟩]
  · unfold compute_usage_prediction
    dsimp only
    rw [if_neg h]
  · unfold compute_usage_prediction
    dsimp only
    omega

/-- Claim C8, witness: a depleting configuration and an over-quota
configuration. -/
theorem prediction_tokens_left_and_end_witness :
    (compute_usage_prediction 7000 500 2 0 999).2 = 0 + ((6500 : ℚ) / 2) * 60 ∧
    (compute_usage_prediction 7000 8000 2 0 999).2 = 999 ∧
    (compute_usage_prediction 7000 8000 2 0 999).1 < 0 := by
  refine ⟨?_, ?_, ?_⟩
  · have h := (prediction_tokens_left_and_end 7000 500 2 0 999).2.1
      (by norm_num) (by norm_num)
    rw [h]
    norm_num
  · exact (prediction_tokens_left_and_end 7000 8000 2 0 999).2.2.1
      (by intro hc; exact absurd hc.2 (by norm_num))
  · exact (prediction_tokens_left_and_end 7000 8000 2 0 999).2.2.2 (by norm_num)

/-- Claim C9, counterexample: with a utc-aware now at 03:30 and the
consolidated scheduler, an unknown identifier falls back to Europe/Warsaw
(offset +3600 here) and yields 08:00 utc, while the call with the default
identifier keeps utc wall time and yields 04:00 utc: the two calls differ. -/
theorem next_reset_unknown_tz_utc_differs :
    get_next_reset_time_tz dbW 12600 (some 0) none "Mars/Colony" ≠
    get_next_reset_time_tz dbW 12600 (some 0) none "Europe/Warsaw" := by decide

/-- Claim C9, amended: the unknown-identifier call never fails and returns
exactly the result of the default-identifier call whenever now is naive or
carries a non-utc offset; the consolidated implementation special-cases a
utc-aware now with the default identifier (skipping the conversion), so the
two calls can differ there. -/
theorem next_reset_unknown_tz_fallback (db : TzDb) (t : ℤ) (tzinfo : Option ℤ)
    (cr : Option ℤ) (s : String)
    (hunk : db.lookup s = none) (hutc : tzinfo ≠ some 0) :
    get_next_reset_time_tz db t tzinfo cr s =
    get_next_reset_time_tz db t tzinfo cr "Europe/Warsaw" := by
  unfold get_next_reset_time_tz resolve_timezone
  rw [if_neg (fun hc => hutc hc.1), if_neg (fun hc => hutc hc.1), hunk, db.warsaw_ok]

/-- Claim C9, witness for the amended theorem with a naive now. -/
theorem next_reset_unknown_tz_fallback_witness :
    get_next_reset_time_tz dbW 0 none none "Mars/Colony" =
    get_next_reset_time_tz dbW 0 none none "Europe/Warsaw" :=
  next_reset_unknown_tz_fallback dbW 0 none none "Mars/Colony" (by decide) (by decide)

/-- Claim C10: the consolidated limit resolver always returns one of the
three tier ceilings; in inferred mode the observed valid maximum is
bucketed (at most 7000 gives 7000, between gives 35000, above 35000 gives
140000) rather than returned verbatim; and every plan name outside the
known set resolves to 7000. -/
theorem token_limit_calc_tiers :
    (∀ (plan : String) (blocks : Option (List Block)),
      get_token_limit_calc plan blocks ∈ ([7000, 35000, 140000] : List ℤ)) ∧
    (∀ blocks : Option (List Block),
      get_token_limit_calc "custom_max" blocks =
        if 35000 < max_valid_tokens (blocks.getD []) then 140000
        else if 7000 < max_valid_tokens (blocks.getD []) then 35000
        else 7000) ∧
    (∀ (plan : String) (blocks : Option (List Block)),
      plan ≠ "pro" → plan ≠ "max5" → plan ≠ "max20" → plan ≠ "custom_max" →
      get_token_limit_calc plan blocks = 7000) := by
  refine ⟨fun plan blocks => ?_, fun blocks => ?_, fun plan blocks h1 h2 h3 h4 => ?_⟩
  · unfold get_token_limit_calc
    by_cases hc : plan = "custom_max" ∧ blocksTruthy blocks
    · rw [if_pos hc]
      dsimp only
      split_ifs <;> simp
    · rw [if_neg hc]
      exact lookup_getD_mem plan
  · cases blocks with
    | none => decide
    | some bs =>
      by_cases hbs : bs = []
      · subst hbs
        decide
      · have htr : blocksTruthy (some bs) = true := by
          simp [blocksTruthy, hbs]
        have hfold : bs.foldl (fun max_tokens b =>
            if b.isGap || b.isActive then max_tokens
            else if max_tokens < b.totalTokens then b.totalTokens else max_tokens) 0
            = max_valid_tokens bs := by
          rw [foldl_max_valid bs 0 le_rfl, max_eq_right (max_valid_nonneg bs)]
        unfold get_token_limit_calc
        rw [if_pos (⟨rfl, htr⟩ : "custom_max" = "custom_max" ∧
          blocksTruthy (some bs) = true)]
        simp only [Option.getD_some]
        simp only [hfold]
  · have hlook := lookup_unknown plan h1 h2 h3
    unfold get_token_limit_calc
    rw [if_neg (fun hc => h4 hc.1)]
    simp [hlook]

/-- Claim C10, witness: an unknown plan name resolves to 7000. -/
theorem token_limit_calc_tiers_witness :
    get_token_limit_calc "enterprise" none = 7000 :=
  token_limit_calc_tiers.2.2 "enterprise" none (by decide) (by decide) (by decide)
    (by decide)
